import Mathlib

/-!
Verification of the amortization engine of the loan-calculator repository
(`src/utils/calculations.ts`) against its natural-language specification.

The TypeScript code works over JavaScript numbers; we embed it over exact
rationals (ℚ).  `Math.pow` is modelled by `jpow`, which agrees with the real
power function on integer exponents (the only exponents at which any theorem
below depends on its value); `Math.round`, `Math.ceil` and the JS remainder
operator `%` are modelled by `jround`, `jceil` and `jmod`.  Division by zero
follows ℚ's total-division convention (`x / 0 = 0`) where JS would produce
`Infinity`; no theorem below depends on a configuration that divides by zero.
The `while` loop of `generateSchedule` is modelled by fuel recursion, with
the fuel set to the loop's own iteration bound `maxMonths`, so that month
`m` is within the JS loop bound `month <= maxMonths` exactly when the
remaining fuel is positive.
-/

namespace LoanCalc

/-- Truncation toward zero, as JS number-to-integer truncation. -/
def jtrunc (x : ℚ) : ℤ := if 0 ≤ x then ⌊x⌋ else ⌈x⌉

/-- JS `Math.round`: round half toward positive infinity. -/
def jround (x : ℚ) : ℤ := ⌊x + 1/2⌋

/-- JS `Math.ceil`. -/
def jceil (x : ℚ) : ℤ := ⌈x⌉

/-- JS remainder operator `a % b` on numbers: `a - b * trunc (a / b)` (the
result has the sign of the dividend).  For `b = 0`, JS yields `NaN`; that
case is unreachable below (guarded by `prepaymentFrequency > 0`), and we
return `a` there. -/
def jmod (a b : ℚ) : ℚ := if b = 0 then a else a - b * (jtrunc (a / b) : ℚ)

/-- JS `Math.pow`, modelled exactly on integer exponents.  On non-integer
exponents real `Math.pow` is generally irrational; we return 0 there, and
no theorem in this file depends on the value of `jpow` at a non-integer
exponent. -/
def jpow (b e : ℚ) : ℚ := if e.den = 1 then b ^ e.num else 0

/-- Type of `prepaymentTiming`: source values `"start"` and `"end"`. -/
inductive PrepaymentTiming where
  | start : PrepaymentTiming
  | atEnd : PrepaymentTiming
deriving DecidableEq

/-- Type of `prepaymentMode`: source values `"reduce-emi"` and `"reduce-tenure"`. -/
inductive PrepaymentMode where
  | reduceEmi : PrepaymentMode
  | reduceTenure : PrepaymentMode
deriving DecidableEq

/-- Structure `LoanInputs` from `src/types` as consumed by `calculations.ts`.
Field order for positional `LoanInputs.mk`: principal, annualInterestRate,
tenureYears, lumpsumAmount, prepaymentFrequency, monthlyExtraPayment,
customEmi, yearlyPrepayments, prepaymentTiming, prepaymentMode. -/
structure LoanInputs where
  principal : ℚ
  annualInterestRate : ℚ
  tenureYears : ℚ
  lumpsumAmount : ℚ
  prepaymentFrequency : ℚ
  monthlyExtraPayment : ℚ
  customEmi : ℚ
  yearlyPrepayments : List ℚ
  prepaymentTiming : PrepaymentTiming
  prepaymentMode : PrepaymentMode
deriving DecidableEq

/-- One row of the amortization schedule. -/
structure AmortizationRow where
  month : ℕ
  year : ℕ
  beginningBalance : ℚ
  emi : ℚ
  interest : ℚ
  principalPaid : ℚ
  lumpsum : ℚ
  totalPaidThisMonth : ℚ
  endingBalance : ℚ
deriving DecidableEq

/-- Structure `LoanSummary` as produced by `getSummary`. -/
structure LoanSummary where
  monthlyEmi : ℚ
  totalInterestStandard : ℚ
  totalInterestWithPrepayment : ℚ
  interestSaved : ℚ
  standardTenureMonths : ℕ
  newTenureMonths : ℕ
  tenureSavedMonths : ℕ
  totalAmountStandard : ℚ
  totalAmountWithPrepayment : ℚ
  totalPrepaymentOutlay : ℚ
deriving DecidableEq

/-- Structure `PrepaymentInsight` as produced by `getPrepaymentInsight`. -/
structure PrepaymentInsight where
  totalPrepaymentOutlay : ℚ
  interestSaved : ℚ
  roi : ℚ
  annualisedReturn : ℚ
  tenureSavedMonths : ℕ
deriving DecidableEq

/-- Digit grouping for the number-to-string conversion toLocaleString with locale en-IN applied to
an integer: rightmost group of three digits, then groups of two, separated
by commas.  Operates on the reversed digit list; fuel bounds the recursion
by the list length. -/
def inrGroup : ℕ → List Char → List Char
  | 0, ds => ds
  | _ + 1, [] => []
  | f + 1, ds => if ds.length ≤ 2 then ds else ds.take 2 ++ ',' :: inrGroup f (ds.drop 2)

/-- Model of toLocaleString with locale en-IN for an integer `n`. -/
def intToLocaleINR (n : ℤ) : String :=
  let digits := Nat.toDigits 10 n.natAbs
  let rev := digits.reverse
  let grouped := rev.take 3 ++
    (if (rev.drop 3).isEmpty then [] else ',' :: inrGroup (rev.drop 3).length (rev.drop 3))
  (if n < 0 then "-" else "") ++ String.mk grouped.reverse

/-- The custom-EMI validation message pushed by `validateInputs`, as a
function of the computed `minEmi`. -/
def customEmiMsg (minEmi : ℚ) : String :=
  "Custom EMI must exceed monthly interest (₹" ++ intToLocaleINR (jceil minEmi) ++
    ") to reduce principal."

/-- Model of `validateInputs` from `calculations.ts`: the sequential pushes are
modelled as a concatenation of conditional singleton lists, in push order. -/
def validateInputs (inputs : LoanInputs) : List String :=
  (if inputs.principal ≤ 0 then ["Loan amount must be positive."] else []) ++
  (if inputs.annualInterestRate < 0 then ["Interest rate cannot be negative."] else []) ++
  (if inputs.annualInterestRate > 50 then ["Interest rate seems unrealistically high (>50%)."] else []) ++
  (if inputs.tenureYears ≤ 0 then ["Tenure must be at least 1 year."] else []) ++
  (if inputs.tenureYears > 40 then ["Tenure exceeds 40 years."] else []) ++
  (if inputs.lumpsumAmount < 0 then ["Lump sum amount cannot be negative."] else []) ++
  (if inputs.monthlyExtraPayment < 0 then ["Monthly extra payment cannot be negative."] else []) ++
  (if inputs.customEmi < 0 then ["Custom EMI cannot be negative."] else []) ++
  (if inputs.customEmi > 0 then
    (if inputs.customEmi ≤ inputs.principal * (inputs.annualInterestRate / 12 / 100) then
      [customEmiMsg (inputs.principal * (inputs.annualInterestRate / 12 / 100))] else [])
   else [])

/-- Model of `calculateEmi(p, r, n)` (annual tenure `n` in years). -/
def calculateEmi (p r n : ℚ) : ℚ :=
  if p ≤ 0 ∨ n ≤ 0 then 0
  else
    let monthlyRate := r / 12 / 100
    let numMonths := n * 12
    if monthlyRate = 0 then p / numMonths
    else p * monthlyRate * jpow (1 + monthlyRate) numMonths /
      (jpow (1 + monthlyRate) numMonths - 1)

/-- Model of `calculateEmiForMonths(p, r, months)`. -/
def calculateEmiForMonths (p r months : ℚ) : ℚ :=
  if p ≤ 0 ∨ months ≤ 0 then 0
  else
    let monthlyRate := r / 12 / 100
    if monthlyRate = 0 then p / months
    else p * monthlyRate * jpow (1 + monthlyRate) months /
      (jpow (1 + monthlyRate) months - 1)

/-- The `extraPayment` accumulated at the top of the loop body for month
`m` (1-based): the flat monthly extra, the lump sum when the month index is
a multiple of the (positive) frequency, and the relevant year's entry of
`yearlyPrepayments` at year start (timing `"start"`) or year end (timing
`"end"`); each source clamped to ≥ 0 before summing.  Zero when
`usePrepayments` is false. -/
def extraOf (inputs : LoanInputs) (usePrepayments : Bool) (m : ℕ) : ℚ :=
  if usePrepayments then
    max 0 inputs.monthlyExtraPayment +
    (if 0 < inputs.prepaymentFrequency ∧ jmod (m : ℚ) inputs.prepaymentFrequency = 0 then
      max 0 inputs.lumpsumAmount else 0) +
    (if (inputs.prepaymentTiming = PrepaymentTiming.start ∧ m % 12 = 1) ∨
        (inputs.prepaymentTiming = PrepaymentTiming.atEnd ∧ m % 12 = 0) then
      max 0 (inputs.yearlyPrepayments.getD ((m - 1) / 12) 0) else 0)
  else 0

/-- One iteration of the `while` body of `generateSchedule`: given the month
index and the running balance, produce the emitted row and the new balance.
The two mutations of `appliedExtra` in the source are in mutually exclusive
branches (timing `"start"` vs `"end"`), so they are modelled as `a1` / `a2`
with `lumpsum` selecting the branch that ran. -/
def stepRow (inputs : LoanInputs) (usePrepayments : Bool) (monthlyRate : ℚ)
    (totalMonths : ℕ) (standardEmi : ℚ) (m : ℕ) (b : ℚ) : AmortizationRow × ℚ :=
  let extraPayment := extraOf inputs usePrepayments m
  let remainingMonths : ℕ := max 1 (totalMonths + 1 - m)
  let a1 : ℚ :=
    if usePrepayments ∧ inputs.prepaymentTiming = PrepaymentTiming.start ∧ 0 < extraPayment
    then min b extraPayment else 0
  let b1 := b - a1
  let interest := b1 * monthlyRate
  let emi0 :=
    if usePrepayments ∧ inputs.prepaymentMode = PrepaymentMode.reduceEmi
    then calculateEmiForMonths b1 inputs.annualInterestRate (remainingMonths : ℚ)
    else standardEmi
  let emi1 := if usePrepayments ∧ 0 < inputs.customEmi then inputs.customEmi else emi0
  let emi := min (b1 + interest) emi1
  let principalPaid := emi - interest
  let endApplies : Prop :=
    usePrepayments ∧ inputs.prepaymentTiming = PrepaymentTiming.atEnd ∧ 0 < extraPayment
  let rem := max 0 (b1 - principalPaid)
  let a2 : ℚ := if endApplies then min rem extraPayment else 0
  let b2 := if endApplies then rem - a2 else b1 - principalPaid
  let applied := if endApplies then a2 else a1
  ({ month := m
     year := (jceil ((m : ℚ) / 12)).toNat
     beginningBalance := b
     emi := emi
     interest := interest
     principalPaid := principalPaid
     lumpsum := applied
     totalPaidThisMonth := emi + applied
     endingBalance := max 0 b2 }, b2)

/-- The `while` loop of `generateSchedule` as fuel recursion.  The JS guard
is `balance > 0.01 && month <= maxMonths`; the fuel equals
`maxMonths - month + 1`, so `month <= maxMonths` is exactly `fuel > 0`.
The trailing `if (balance <= 0) break` of the body is the inner test. -/
def scheduleGo (inputs : LoanInputs) (usePrepayments : Bool) (monthlyRate : ℚ)
    (totalMonths : ℕ) (standardEmi : ℚ) : ℕ → ℕ → ℚ → List AmortizationRow
  | 0, _, _ => []
  | fuel + 1, m, b =>
    if b ≤ 1/100 then []
    else
      (stepRow inputs usePrepayments monthlyRate totalMonths standardEmi m b).1 ::
        (if (stepRow inputs usePrepayments monthlyRate totalMonths standardEmi m b).2 ≤ 0
         then []
         else scheduleGo inputs usePrepayments monthlyRate totalMonths standardEmi
                fuel (m + 1)
                (stepRow inputs usePrepayments monthlyRate totalMonths standardEmi m b).2)

/-- Model of `generateSchedule(inputs, usePrepayments)`. -/
def generateSchedule (inputs : LoanInputs) (usePrepayments : Bool) : List AmortizationRow :=
  let monthlyRate := inputs.annualInterestRate / 12 / 100
  let totalMonths : ℕ := (max 0 (jround (inputs.tenureYears * 12))).toNat
  let standardEmi := calculateEmi inputs.principal inputs.annualInterestRate inputs.tenureYears
  let maxMonths : ℕ := min 600 (if totalMonths = 0 then 600 else totalMonths)
  scheduleGo inputs usePrepayments monthlyRate totalMonths standardEmi maxMonths 1 inputs.principal

/-- Sum of the `interest` fields of a schedule, as the `reduce` in
`getSummary`. -/
def sumInterest (s : List AmortizationRow) : ℚ :=
  s.foldl (fun acc row => acc + row.interest) 0

/-- Sum of the `totalPaidThisMonth` fields of a schedule. -/
def sumTotalPaid (s : List AmortizationRow) : ℚ :=
  s.foldl (fun acc row => acc + row.totalPaidThisMonth) 0

/-- Sum of the `lumpsum` fields of a schedule. -/
def sumLumpsum (s : List AmortizationRow) : ℚ :=
  s.foldl (fun acc row => acc + row.lumpsum) 0

/-- A configuration has a positive prepayment source when the flat monthly
extra is positive, or a positive lump sum recurs with frequency at least 1,
or some yearly prepayment entry is positive. -/
def positiveSource (I : LoanInputs) : Prop :=
  0 < I.monthlyExtraPayment ∨
  (0 < I.lumpsumAmount ∧ 1 ≤ I.prepaymentFrequency) ∨
  ∃ y ∈ I.yearlyPrepayments, 0 < y

instance (I : LoanInputs) : Decidable (positiveSource I) := by
  unfold positiveSource
  infer_instance

/-- Model of `getSummary(inputs)`. -/
def getSummary (inputs : LoanInputs) : LoanSummary :=
  let standardSchedule := generateSchedule inputs false
  let prepaySchedule := generateSchedule inputs true
  let emi :=
    if 0 < inputs.customEmi then inputs.customEmi
    else calculateEmi inputs.principal inputs.annualInterestRate inputs.tenureYears
  let totalInterestStandard := sumInterest standardSchedule
  let totalInterestWithPrepayment := sumInterest prepaySchedule
  { monthlyEmi := emi
    totalInterestStandard := totalInterestStandard
    totalInterestWithPrepayment := totalInterestWithPrepayment
    interestSaved := max 0 (totalInterestStandard - totalInterestWithPrepayment)
    standardTenureMonths := standardSchedule.length
    newTenureMonths := prepaySchedule.length
    tenureSavedMonths := standardSchedule.length - prepaySchedule.length
    totalAmountStandard := sumTotalPaid standardSchedule
    totalAmountWithPrepayment := sumTotalPaid prepaySchedule
    totalPrepaymentOutlay := sumLumpsum prepaySchedule }

/-- Model of `getPrepaymentInsight(summary)`. -/
def getPrepaymentInsight (s : LoanSummary) : PrepaymentInsight :=
  let roi := if 0 < s.totalPrepaymentOutlay
    then s.interestSaved / s.totalPrepaymentOutlay * 100 else 0
  let yearsSaved : ℚ := (s.tenureSavedMonths : ℚ) / 12
  let annualisedReturn :=
    if 0 < yearsSaved ∧ 0 < s.totalPrepaymentOutlay
    then (jpow (1 + s.interestSaved / s.totalPrepaymentOutlay) (1 / max 1 yearsSaved) - 1) * 100
    else 0
  { totalPrepaymentOutlay := s.totalPrepaymentOutlay
    interestSaved := s.interestSaved
    roi := roi
    annualisedReturn := annualisedReturn
    tenureSavedMonths := s.tenureSavedMonths }

end LoanCalc

namespace LoanCalc

/-! ## Basic facts about one loop iteration and the loop -/

theorem stepRow_beginningBalance (I : LoanInputs) (u : Bool) (mr : ℚ) (tm : ℕ) (E : ℚ)
    (m : ℕ) (b : ℚ) : (stepRow I u mr tm E m b).1.beginningBalance = b := rfl

theorem stepRow_endingBalance (I : LoanInputs) (u : Bool) (mr : ℚ) (tm : ℕ) (E : ℚ)
    (m : ℕ) (b : ℚ) :
    (stepRow I u mr tm E m b).1.endingBalance = max 0 (stepRow I u mr tm E m b).2 := rfl

theorem stepRow_totalPaid (I : LoanInputs) (u : Bool) (mr : ℚ) (tm : ℕ) (E : ℚ)
    (m : ℕ) (b : ℚ) :
    (stepRow I u mr tm E m b).1.totalPaidThisMonth =
      (stepRow I u mr tm E m b).1.emi + (stepRow I u mr tm E m b).1.lumpsum := rfl

theorem scheduleGo_length_le (I : LoanInputs) (u : Bool) (mr : ℚ) (tm : ℕ) (E : ℚ) :
    ∀ (fuel m : ℕ) (b : ℚ), (scheduleGo I u mr tm E fuel m b).length ≤ fuel := by
  intro fuel
  induction fuel with
  | zero => intro m b; simp [scheduleGo]
  | succ f ih =>
    intro m b
    simp only [scheduleGo]
    split
    · simp
    · split
      · simp
      · simpa using ih (m + 1) _

theorem scheduleGo_head_beginning (I : LoanInputs) (u : Bool) (mr : ℚ) (tm : ℕ) (E : ℚ) :
    ∀ (fuel m : ℕ) (b : ℚ), ∀ r ∈ (scheduleGo I u mr tm E fuel m b).head?,
      r.beginningBalance = b := by
  intro fuel m b r hr
  cases fuel with
  | zero => simp [scheduleGo] at hr
  | succ f =>
    simp only [scheduleGo] at hr
    split at hr
    · simp at hr
    · simp only [List.head?_cons, Option.mem_def, Option.some.injEq] at hr
      subst hr
      exact stepRow_beginningBalance ..

theorem scheduleGo_nonneg_ending (I : LoanInputs) (u : Bool) (mr : ℚ) (tm : ℕ) (E : ℚ) :
    ∀ (fuel m : ℕ) (b : ℚ), ∀ r ∈ scheduleGo I u mr tm E fuel m b,
      0 ≤ r.endingBalance := by
  intro fuel
  induction fuel with
  | zero => intro m b r hr; simp [scheduleGo] at hr
  | succ f ih =>
    intro m b r hr
    simp only [scheduleGo] at hr
    split at hr
    · simp at hr
    · rcases List.mem_cons.1 hr with h | h
      · subst h
        rw [stepRow_endingBalance]
        exact le_max_left 0 _
      · split at h
        · simp at h
        · exact ih (m + 1) _ r h

theorem scheduleGo_chain (I : LoanInputs) (u : Bool) (mr : ℚ) (tm : ℕ) (E : ℚ) :
    ∀ (fuel m : ℕ) (b : ℚ),
      List.Chain' (fun r s => r.endingBalance = s.beginningBalance)
        (scheduleGo I u mr tm E fuel m b) := by
  intro fuel
  induction fuel with
  | zero => intro m b; simp [scheduleGo]
  | succ f ih =>
    intro m b
    simp only [scheduleGo]
    split
    · simp
    · split
      · simp
      · rename_i hb hpos
        refine List.chain'_cons'.2 ⟨?_, ih (m + 1) _⟩
        intro s hs
        have hbeg := scheduleGo_head_beginning I u mr tm E f (m + 1) _ s hs
        rw [stepRow_endingBalance, hbeg]
        exact max_eq_right (le_of_lt (lt_of_not_le hpos))

end LoanCalc

namespace LoanCalc

/-- The loop produces nothing once the balance is at or below the 0.01
epsilon (in particular for nonpositive balances). -/
theorem scheduleGo_eq_nil_of_le (I : LoanInputs) (u : Bool) (mr : ℚ) (tm : ℕ) (E : ℚ)
    (fuel m : ℕ) (b : ℚ) (hb : b ≤ 1/100) : scheduleGo I u mr tm E fuel m b = [] := by
  cases fuel with
  | zero => rfl
  | succ f => simp only [scheduleGo, if_pos hb]

/-! ## Claims C1 and C2 -/

/-- C1: for every configuration and every value of the prepayments flag, in
the schedule returned by `generateSchedule` every row's `endingBalance` is
nonnegative, and for every adjacent pair of rows, row `i`'s `endingBalance`
equals row `i+1`'s `beginningBalance`. -/
theorem claim1_balance_invariants (I : LoanInputs) (u : Bool) :
    (∀ r ∈ generateSchedule I u, 0 ≤ r.endingBalance) ∧
    List.Chain' (fun r s => r.endingBalance = s.beginningBalance) (generateSchedule I u) :=
  ⟨scheduleGo_nonneg_ending I u _ _ _ _ _ _, scheduleGo_chain I u _ _ _ _ _ _⟩

/-- Closed instance of `claim1_balance_invariants` at a concrete
configuration whose prepaid schedule is nonempty. -/
theorem claim1_balance_invariants_witness :
    0 ≤ ((generateSchedule
        (LoanInputs.mk 1000 12 (1/6) 0 0 50 0 [] PrepaymentTiming.atEnd
          PrepaymentMode.reduceTenure) true).get
        ⟨0, by with_unfolding_all decide⟩).endingBalance :=
  (claim1_balance_invariants
      (LoanInputs.mk 1000 12 (1/6) 0 0 50 0 [] PrepaymentTiming.atEnd
        PrepaymentMode.reduceTenure) true).1 _ (List.get_mem _ _ _)

/-- C2: for every configuration (including invalid ones) and every value of
the prepayments flag, `generateSchedule` is a total function (it terminates:
it is defined by structurally decreasing fuel recursion) and the returned
schedule has at most 600 rows. -/
theorem claim2_length_cap (I : LoanInputs) (u : Bool) :
    (generateSchedule I u).length ≤ 600 :=
  le_trans (scheduleGo_length_le I u _ _ _ _ _ _) (min_le_left _ _)

/-! ## Claim C3 -/

/-- C3 fails as stated: with positive principal, zero tenure and zero rate,
`totalMonths` is 0, the `totalMonths || 600` fallback restores the 600-month
cap, and with `standardEmi = 0` the balance never decreases, so the schedule
is not empty (it has 600 rows). -/
theorem claim3_counterexample :
    ¬(generateSchedule
        (LoanInputs.mk 100 0 0 0 0 0 0 [] PrepaymentTiming.atEnd
          PrepaymentMode.reduceTenure) false = []) := by
  with_unfolding_all decide

/-- C3 amended: a configuration with nonpositive principal yields an empty
schedule (for either flag); the tenure half of the original claim is dropped,
since with positive principal and nonpositive tenure the simulator can run
to the 600-month cap. -/
theorem claim3_nonpositive_principal_empty (I : LoanInputs) (u : Bool)
    (h : I.principal ≤ 0) : generateSchedule I u = [] :=
  scheduleGo_eq_nil_of_le I u _ _ _ _ _ _ (le_trans h (by norm_num))

/-- Closed instance of `claim3_nonpositive_principal_empty`. -/
theorem claim3_nonpositive_principal_empty_witness :
    generateSchedule
      (LoanInputs.mk 0 (15/2) 15 0 0 0 0 [] PrepaymentTiming.atEnd
        PrepaymentMode.reduceTenure) false = [] :=
  claim3_nonpositive_principal_empty _ false (by norm_num)

end LoanCalc

namespace LoanCalc

/-! ## Claim C5: the standard run reads only principal, rate and tenure -/

/-- With `usePrepayments = false`, one loop iteration does not read any
field of the configuration: all prepayment branches are skipped and the
installment is the precomputed `standardEmi` argument. -/
theorem stepRow_false_congr (I J : LoanInputs) (mr : ℚ) (tm : ℕ) (E : ℚ)
    (m : ℕ) (b : ℚ) : stepRow I false mr tm E m b = stepRow J false mr tm E m b := by
  simp [stepRow, extraOf]

/-- With `usePrepayments = false`, the whole loop does not read the
configuration. -/
theorem scheduleGo_false_congr (I J : LoanInputs) (mr : ℚ) (tm : ℕ) (E : ℚ) :
    ∀ (fuel m : ℕ) (b : ℚ),
      scheduleGo I false mr tm E fuel m b = scheduleGo J false mr tm E fuel m b := by
  intro fuel
  induction fuel with
  | zero => intro m b; rfl
  | succ f ih =>
    intro m b
    simp only [scheduleGo, stepRow_false_congr I J mr tm E m b]
    split
    · rfl
    · rw [ih]

/-- The standard (prepayments-disabled) schedule depends only on principal,
rate and tenure. -/
theorem generateSchedule_false_congr (I J : LoanInputs)
    (hp : I.principal = J.principal)
    (hr : I.annualInterestRate = J.annualInterestRate)
    (ht : I.tenureYears = J.tenureYears) :
    generateSchedule I false = generateSchedule J false := by
  simp only [generateSchedule, hp, hr, ht]
  exact scheduleGo_false_congr I J _ _ _ _ _ _

/-- C5: any two configurations agreeing on principal, annualInterestRate and
tenureYears, but differing arbitrarily in the prepayment settings, yield
identical schedules from `generateSchedule` with the prepayments flag false. -/
theorem claim5_standard_ignores_prepay_fields (I J : LoanInputs)
    (hp : I.principal = J.principal)
    (hr : I.annualInterestRate = J.annualInterestRate)
    (ht : I.tenureYears = J.tenureYears) :
    generateSchedule I false = generateSchedule J false :=
  generateSchedule_false_congr I J hp hr ht

/-- Closed instance of `claim5_standard_ignores_prepay_fields`: two
configurations with the same core triple and thoroughly different
prepayment settings. -/
theorem claim5_standard_ignores_prepay_fields_witness :
    generateSchedule
      (LoanInputs.mk 2500000 (15/2) 15 3000000 12 0 0 [] PrepaymentTiming.atEnd
        PrepaymentMode.reduceTenure) false =
    generateSchedule
      (LoanInputs.mk 2500000 (15/2) 15 0 0 50000 40000 [100000, 200000]
        PrepaymentTiming.start PrepaymentMode.reduceEmi) false :=
  claim5_standard_ignores_prepay_fields _ _ rfl rfl rfl

/-! ## Claim C7: zero interest rate -/

/-- With a zero monthly rate every emitted row carries zero interest. -/
theorem stepRow_interest_zero (I : LoanInputs) (u : Bool) (tm : ℕ) (E : ℚ)
    (m : ℕ) (b : ℚ) : (stepRow I u 0 tm E m b).1.interest = 0 := by
  simp [stepRow]

theorem scheduleGo_interest_zero (I : LoanInputs) (u : Bool) (tm : ℕ) (E : ℚ) :
    ∀ (fuel m : ℕ) (b : ℚ), ∀ r ∈ scheduleGo I u 0 tm E fuel m b, r.interest = 0 := by
  intro fuel
  induction fuel with
  | zero => intro m b r hr; simp [scheduleGo] at hr
  | succ f ih =>
    intro m b r hr
    simp only [scheduleGo] at hr
    split at hr
    · simp at hr
    · rcases List.mem_cons.1 hr with h | h
      · subst h; exact stepRow_interest_zero ..
      · split at h
        · simp at h
        · exact ih (m + 1) _ r h

/-- Shift lemma for the interest `reduce`. -/
theorem foldl_interest_eq :
    ∀ (s : List AmortizationRow) (init : ℚ),
      s.foldl (fun acc row => acc + row.interest) init =
        init + s.foldl (fun acc row => acc + row.interest) 0
  | [], init => by simp
  | r :: t, init => by
    rw [List.foldl_cons, List.foldl_cons, foldl_interest_eq t (init + r.interest),
      foldl_interest_eq t (0 + r.interest)]
    ring

theorem sumInterest_cons (r : AmortizationRow) (t : List AmortizationRow) :
    sumInterest (r :: t) = r.interest + sumInterest t := by
  simp only [sumInterest, List.foldl_cons]
  rw [foldl_interest_eq]
  ring

theorem sumInterest_eq_zero (s : List AmortizationRow)
    (h : ∀ r ∈ s, r.interest = 0) : sumInterest s = 0 := by
  induction s with
  | nil => rfl
  | cons r t ih =>
    rw [sumInterest_cons, h r (List.mem_cons_self r t),
      ih (fun x hx => h x (List.mem_cons_of_mem r hx))]
    ring

/-- C7: for every configuration with zero annual rate, positive principal
and positive tenure, every row of the standard schedule has interest exactly
0 (hence zero total interest), and the computed installment is
`principal / (tenureYears * 12)`. -/
theorem claim7_zero_rate (I : LoanInputs) (hr : I.annualInterestRate = 0)
    (hp : 0 < I.principal) (ht : 0 < I.tenureYears) :
    (∀ r ∈ generateSchedule I false, r.interest = 0) ∧
    sumInterest (generateSchedule I false) = 0 ∧
    calculateEmi I.principal I.annualInterestRate I.tenureYears =
      I.principal / (I.tenureYears * 12) := by
  have hmr : I.annualInterestRate / 12 / 100 = 0 := by rw [hr]; norm_num
  have hrows : ∀ r ∈ generateSchedule I false, r.interest = 0 := by
    simp only [generateSchedule, hmr]
    exact scheduleGo_interest_zero I false _ _ _ _ _
  refine ⟨hrows, sumInterest_eq_zero _ hrows, ?_⟩
  rw [calculateEmi, if_neg (by push_neg; exact ⟨hp, ht⟩)]
  simp only [hmr, hr]
  norm_num

/-- Closed instance of `claim7_zero_rate`. -/
theorem claim7_zero_rate_witness :
    sumInterest (generateSchedule
      (LoanInputs.mk 1200 0 1 0 0 0 0 [] PrepaymentTiming.atEnd
        PrepaymentMode.reduceTenure) false) = 0 :=
  (claim7_zero_rate _ rfl (by norm_num) (by norm_num)).2.1

end LoanCalc

namespace LoanCalc

/-! ## Claim C9: per-row cash bounds -/

/-- Bound for the timing-start branch: the clamped installment plus the
applied extra stays within the opening balance plus interest. -/
theorem payAux1 (b ex mr e1 : ℚ) :
    min ((b - min b ex) + (b - min b ex) * mr) e1 + min b ex ≤
      b + (b - min b ex) * mr := by
  have h1 : min ((b - min b ex) + (b - min b ex) * mr) e1 ≤
      (b - min b ex) + (b - min b ex) * mr := min_le_left _ _
  have h2 : min b ex ≤ b := min_le_left _ _
  linarith

/-- Bound for the timing-end branch. -/
theorem payAux2 (b mr e1 ex : ℚ) :
    min (b + b * mr) e1 + min (max 0 (b - (min (b + b * mr) e1 - b * mr))) ex ≤
      b + b * mr := by
  have h1 : min (b + b * mr) e1 ≤ b + b * mr := min_le_left _ _
  have h3 : max 0 (b - (min (b + b * mr) e1 - b * mr)) =
      b - (min (b + b * mr) e1 - b * mr) := max_eq_right (by linarith)
  rw [h3]
  have h2 : min (b - (min (b + b * mr) e1 - b * mr)) ex ≤
      b - (min (b + b * mr) e1 - b * mr) := min_le_left _ _
  linarith

/-- Bound for the no-extra branch. -/
theorem payAux3 (b mr e1 : ℚ) : min (b + b * mr) e1 + 0 ≤ b + b * mr := by
  have h1 : min (b + b * mr) e1 ≤ b + b * mr := min_le_left _ _
  linarith

/-- The cash collected in one iteration never exceeds the opening balance
plus the interest charged: the installment is clamped to
`balanceAfterPrepay + interest` and the applied extra is clamped to the
remaining balance. -/
theorem stepRow_paid_le (I : LoanInputs) (u : Bool) (mr : ℚ) (tm : ℕ) (E : ℚ)
    (m : ℕ) (b : ℚ) :
    (stepRow I u mr tm E m b).1.totalPaidThisMonth ≤
      b + (stepRow I u mr tm E m b).1.interest := by
  simp only [stepRow]
  by_cases hstart :
      (u = true ∧ I.prepaymentTiming = PrepaymentTiming.start ∧
        0 < extraOf I u m)
  · have hend : ¬(u = true ∧ I.prepaymentTiming = PrepaymentTiming.atEnd ∧
        0 < extraOf I u m) := by
      rintro ⟨-, h, -⟩
      rw [hstart.2.1] at h
      exact PrepaymentTiming.noConfusion h
    simp only [if_pos hstart, if_neg hend]
    exact payAux1 b (extraOf I u m) mr _
  · simp only [if_neg hstart]
    by_cases hend : (u = true ∧ I.prepaymentTiming = PrepaymentTiming.atEnd ∧
        0 < extraOf I u m)
    · simp only [if_pos hend, sub_zero]
      exact payAux2 b mr _ (extraOf I u m)
    · simp only [if_neg hend, sub_zero]
      exact payAux3 b mr _

theorem scheduleGo_paid_le (I : LoanInputs) (u : Bool) (mr : ℚ) (tm : ℕ) (E : ℚ) :
    ∀ (fuel m : ℕ) (b : ℚ), ∀ r ∈ scheduleGo I u mr tm E fuel m b,
      r.totalPaidThisMonth = r.emi + r.lumpsum ∧
      r.totalPaidThisMonth ≤ r.beginningBalance + r.interest := by
  intro fuel
  induction fuel with
  | zero => intro m b r hr; simp [scheduleGo] at hr
  | succ f ih =>
    intro m b r hr
    simp only [scheduleGo] at hr
    split at hr
    · simp at hr
    · rcases List.mem_cons.1 hr with h | h
      · subst h
        refine ⟨stepRow_totalPaid .., ?_⟩
        rw [stepRow_beginningBalance]
        exact stepRow_paid_le ..
      · split at h
        · simp at h
        · exact ih (m + 1) _ r h

/-- C9: every row emitted by `generateSchedule` satisfies
`totalPaidThisMonth = emi + lumpsum`, and the cash collected in a period
never exceeds the period's opening balance plus the interest charged. -/
theorem claim9_paid_bounds (I : LoanInputs) (u : Bool) :
    ∀ r ∈ generateSchedule I u,
      r.totalPaidThisMonth = r.emi + r.lumpsum ∧
      r.totalPaidThisMonth ≤ r.beginningBalance + r.interest :=
  scheduleGo_paid_le I u _ _ _ _ _ _

/-- Closed instance of `claim9_paid_bounds` at a prepaying configuration. -/
theorem claim9_paid_bounds_witness :
    ((generateSchedule
        (LoanInputs.mk 1000 12 (1/6) 100 1 50 0 [5] PrepaymentTiming.start
          PrepaymentMode.reduceTenure) true).get
        ⟨0, by with_unfolding_all decide⟩).totalPaidThisMonth ≤
      ((generateSchedule
        (LoanInputs.mk 1000 12 (1/6) 100 1 50 0 [5] PrepaymentTiming.start
          PrepaymentMode.reduceTenure) true).get
        ⟨0, by with_unfolding_all decide⟩).beginningBalance +
      ((generateSchedule
        (LoanInputs.mk 1000 12 (1/6) 100 1 50 0 [5] PrepaymentTiming.start
          PrepaymentMode.reduceTenure) true).get
        ⟨0, by with_unfolding_all decide⟩).interest :=
  (claim9_paid_bounds _ true _ (List.get_mem _ _ _)).2

/-! ## Claim C10: reported monthly installment -/

/-- C10: `getSummary` reports `monthlyEmi = customEmi` whenever
`customEmi > 0` and the annuity installment from the full principal and
tenure otherwise, while the standard schedule it aggregates does not depend
on `customEmi` (nor on any other prepayment field). -/
theorem claim10_summary_emi (I J : LoanInputs)
    (hp : I.principal = J.principal)
    (hr : I.annualInterestRate = J.annualInterestRate)
    (ht : I.tenureYears = J.tenureYears) :
    ((getSummary I).monthlyEmi =
      if 0 < I.customEmi then I.customEmi
      else calculateEmi I.principal I.annualInterestRate I.tenureYears) ∧
    generateSchedule I false = generateSchedule J false :=
  ⟨rfl, generateSchedule_false_congr I J hp hr ht⟩

/-- Closed instance of `claim10_summary_emi`: a configuration with a custom
installment set reports it, while its standard schedule is that of the
configuration without the custom installment. -/
theorem claim10_summary_emi_witness :
    (getSummary
        (LoanInputs.mk 1000 12 (1/6) 0 0 0 700 [] PrepaymentTiming.atEnd
          PrepaymentMode.reduceTenure)).monthlyEmi = 700 ∧
    generateSchedule
        (LoanInputs.mk 1000 12 (1/6) 0 0 0 700 [] PrepaymentTiming.atEnd
          PrepaymentMode.reduceTenure) false =
      generateSchedule
        (LoanInputs.mk 1000 12 (1/6) 0 0 0 0 [] PrepaymentTiming.atEnd
          PrepaymentMode.reduceTenure) false := by
  have h := claim10_summary_emi
    (LoanInputs.mk 1000 12 (1/6) 0 0 0 700 [] PrepaymentTiming.atEnd
      PrepaymentMode.reduceTenure)
    (LoanInputs.mk 1000 12 (1/6) 0 0 0 0 [] PrepaymentTiming.atEnd
      PrepaymentMode.reduceTenure) rfl rfl rfl
  refine ⟨?_, h.2⟩
  rw [h.1, if_pos (by norm_num)]

/-! ## Claim C8: insight formulas -/

/-- C8: `getPrepaymentInsight` returns
`roi = interestSaved / outlay * 100` when the outlay is positive and 0
otherwise, and `annualisedReturn` is the compounding approximation
`((1 + interestSaved/outlay) ^ (1 / max 1 (tenureSavedMonths/12)) - 1) * 100`
when both the outlay and the months saved are positive, and 0 otherwise. -/
theorem claim8_insight_formulas (s : LoanSummary) :
    (getPrepaymentInsight s).roi =
      (if 0 < s.totalPrepaymentOutlay
       then s.interestSaved / s.totalPrepaymentOutlay * 100 else 0) ∧
    (getPrepaymentInsight s).annualisedReturn =
      (if 0 < s.totalPrepaymentOutlay ∧ 0 < s.tenureSavedMonths
       then (jpow (1 + s.interestSaved / s.totalPrepaymentOutlay)
              (1 / max 1 ((s.tenureSavedMonths : ℚ) / 12)) - 1) * 100
       else 0) := by
  refine ⟨rfl, ?_⟩
  show (if 0 < (s.tenureSavedMonths : ℚ) / 12 ∧ 0 < s.totalPrepaymentOutlay then _ else _) = _
  have hiff : (0 < (s.tenureSavedMonths : ℚ) / 12 ∧ 0 < s.totalPrepaymentOutlay) ↔
      (0 < s.totalPrepaymentOutlay ∧ 0 < s.tenureSavedMonths) := by
    constructor
    · rintro ⟨h1, h2⟩
      refine ⟨h2, ?_⟩
      by_contra hn
      rw [Nat.not_lt, Nat.le_zero] at hn
      rw [hn] at h1
      norm_num at h1
    · rintro ⟨h2, h1⟩
      exact ⟨by positivity, h2⟩
  rw [if_congr hiff rfl rfl]
end LoanCalc

namespace LoanCalc

/-! ## Claim C6: the validator -/

/-- The custom-EMI message is at least 64 characters long (42-character
prefix, the formatted amount, 22-character suffix), while every fixed
validator message is shorter, so the membership test below cannot be
confused by a collision. -/
theorem customEmiMsg_length (q : ℚ) : 64 ≤ (customEmiMsg q).length := by
  unfold customEmiMsg
  rw [String.length_append, String.length_append]
  have h1 : ("Custom EMI must exceed monthly interest (₹" : String).length = 42 := by decide
  have h2 : (") to reduce principal." : String).length = 22 := by decide
  omega

theorem customEmiMsg_ne_short (q : ℚ) (t : String) (ht : t.length < 64) :
    customEmiMsg q ≠ t := by
  intro h
  have hlen := customEmiMsg_length q
  rw [h] at hlen
  omega

theorem mem_ite_nil (c : Prop) [Decidable c] (L : List String) (x : String) :
    x ∈ (if c then L else []) ↔ c ∧ x ∈ L := by
  by_cases h : c
  · simp [h]
  · simp [h]

/-- C6: `validateInputs` is a total function returning a list of strings
(it cannot throw).  Its result contains the custom-installment error string
exactly when `customEmi > 0` and `customEmi ≤ principal * (rate / 12 / 100)`;
and a fully in-range configuration (positive principal, rate in [0, 50],
tenure in (0, 40], nonnegative lump sum and monthly extra, and custom EMI
either zero or strictly above the interest-only charge) validates to the
empty list. -/
theorem claim6_validator (I : LoanInputs) :
    (customEmiMsg (I.principal * (I.annualInterestRate / 12 / 100)) ∈ validateInputs I ↔
      0 < I.customEmi ∧
        I.customEmi ≤ I.principal * (I.annualInterestRate / 12 / 100)) ∧
    (0 < I.principal → 0 ≤ I.annualInterestRate → I.annualInterestRate ≤ 50 →
     0 < I.tenureYears → I.tenureYears ≤ 40 →
     0 ≤ I.lumpsumAmount → 0 ≤ I.monthlyExtraPayment →
     (I.customEmi = 0 ∨ I.principal * (I.annualInterestRate / 12 / 100) < I.customEmi) →
     validateInputs I = []) := by
  constructor
  · have hne1 := customEmiMsg_ne_short (I.principal * (I.annualInterestRate / 12 / 100))
      "Loan amount must be positive." (by decide)
    have hne2 := customEmiMsg_ne_short (I.principal * (I.annualInterestRate / 12 / 100))
      "Interest rate cannot be negative." (by decide)
    have hne3 := customEmiMsg_ne_short (I.principal * (I.annualInterestRate / 12 / 100))
      "Interest rate seems unrealistically high (>50%)." (by decide)
    have hne4 := customEmiMsg_ne_short (I.principal * (I.annualInterestRate / 12 / 100))
      "Tenure must be at least 1 year." (by decide)
    have hne5 := customEmiMsg_ne_short (I.principal * (I.annualInterestRate / 12 / 100))
      "Tenure exceeds 40 years." (by decide)
    have hne6 := customEmiMsg_ne_short (I.principal * (I.annualInterestRate / 12 / 100))
      "Lump sum amount cannot be negative." (by decide)
    have hne7 := customEmiMsg_ne_short (I.principal * (I.annualInterestRate / 12 / 100))
      "Monthly extra payment cannot be negative." (by decide)
    have hne8 := customEmiMsg_ne_short (I.principal * (I.annualInterestRate / 12 / 100))
      "Custom EMI cannot be negative." (by decide)
    simp only [validateInputs, List.mem_append, mem_ite_nil, List.mem_singleton,
      List.not_mem_nil, and_false, false_or, or_false]
    constructor
    · intro hmem
      rcases hmem with ((((((((⟨-, h⟩ | ⟨-, h⟩) | ⟨-, h⟩) | ⟨-, h⟩) | ⟨-, h⟩) | ⟨-, h⟩) |
          ⟨-, h⟩) | ⟨-, h⟩) | ⟨h1, h2, -⟩)
      · exact absurd h hne1
      · exact absurd h hne2
      · exact absurd h hne3
      · exact absurd h hne4
      · exact absurd h hne5
      · exact absurd h hne6
      · exact absurd h hne7
      · exact absurd h hne8
      · exact ⟨h1, h2⟩
    · rintro ⟨h1, h2⟩
      exact Or.inr ⟨h1, h2, trivial⟩
  · intro hp hr0 hr50 ht0 ht40 hl hm hc
    have hmin : 0 ≤ I.principal * (I.annualInterestRate / 12 / 100) := by positivity
    have hcn : ¬(I.customEmi < 0) := by
      rcases hc with h | h
      · rw [h]; exact lt_irrefl 0
      · exact not_lt.2 (le_trans hmin (le_of_lt h))
    simp only [validateInputs, if_neg (not_le.2 hp), if_neg (not_lt.2 hr0),
      if_neg (not_lt.2 hr50), if_neg (not_le.2 ht0), if_neg (not_lt.2 ht40),
      if_neg (not_lt.2 hl), if_neg (not_lt.2 hm), if_neg hcn]
    rcases hc with h | h
    · rw [if_neg (by rw [h]; exact lt_irrefl 0)]
      simp
    · rw [if_pos (lt_of_le_of_lt hmin h), if_neg (not_le.2 h)]
      simp

/-- Closed instance of `claim6_validator`: an in-range configuration with a
valid custom installment validates to the empty list, and a configuration
whose custom installment is below the interest-only charge contains the
custom-installment message. -/
theorem claim6_validator_witness :
    validateInputs
      (LoanInputs.mk 1000 12 10 0 0 0 700 [] PrepaymentTiming.atEnd
        PrepaymentMode.reduceTenure) = [] ∧
    (customEmiMsg ((1000 : ℚ) * ((12 : ℚ) / 12 / 100)) ∈ validateInputs
      (LoanInputs.mk 1000 12 10 0 0 0 5 [] PrepaymentTiming.atEnd
        PrepaymentMode.reduceTenure) ↔ True) := by
  constructor
  · exact (claim6_validator _).2 (by norm_num) (by norm_num) (by norm_num) (by norm_num)
      (by norm_num) (by norm_num) (by norm_num) (Or.inr (by norm_num))
  · rw [iff_true]
    exact ((claim6_validator
      (LoanInputs.mk 1000 12 10 0 0 0 5 [] PrepaymentTiming.atEnd
        PrepaymentMode.reduceTenure)).1).2 ⟨by norm_num, by norm_num⟩

end LoanCalc

namespace LoanCalc

theorem extraOf_nonneg (I : LoanInputs) (u : Bool) (m : ℕ) : 0 ≤ extraOf I u m := by
  unfold extraOf
  split
  · have h1 : (0:ℚ) ≤ max 0 I.monthlyExtraPayment := le_max_left _ _
    have h2 : (0:ℚ) ≤ (if 0 < I.prepaymentFrequency ∧
        jmod (m : ℚ) I.prepaymentFrequency = 0 then max 0 I.lumpsumAmount else 0) := by
      split
      · exact le_max_left _ _
      · exact le_refl 0
    have h3 : (0:ℚ) ≤ (if (I.prepaymentTiming = PrepaymentTiming.start ∧ m % 12 = 1) ∨
        (I.prepaymentTiming = PrepaymentTiming.atEnd ∧ m % 12 = 0) then
        max 0 (I.yearlyPrepayments.getD ((m - 1) / 12) 0) else 0) := by
      split
      · exact le_max_left _ _
      · exact le_refl 0
    linarith
  · exact le_refl 0

/-- Monotonicity in the opening balance of the post-installment balance
`b + b*mr - min (b + b*mr) E`. -/
theorem postBalMono (mr E a b : ℚ) (hmr : 0 ≤ mr) (hab : a ≤ b) :
    a + a * mr - min (a + a * mr) E ≤ b + b * mr - min (b + b * mr) E := by
  have hq : a + a * mr ≤ b + b * mr := by nlinarith
  rcases le_total (a + a * mr) E with h | h
  · rw [min_eq_left h]
    have := min_le_left (b + b * mr) E
    linarith
  · rw [min_eq_right h, min_eq_right (le_trans h hq)]
    linarith

theorem postBalNonneg (mr E b : ℚ) : 0 ≤ b + b * mr - min (b + b * mr) E := by
  have := min_le_left (b + b * mr) E
  linarith

theorem stepRow_false_bal (I : LoanInputs) (mr : ℚ) (tm : ℕ) (E : ℚ) (m : ℕ) (b : ℚ) :
    (stepRow I false mr tm E m b).2 = b + b * mr - min (b + b * mr) E := by
  simp [stepRow]
  ring

theorem stepRow_false_interest (I : LoanInputs) (mr : ℚ) (tm : ℕ) (E : ℚ) (m : ℕ) (b : ℚ) :
    (stepRow I false mr tm E m b).1.interest = b * mr := by
  simp [stepRow]

/-- Algebra for the timing-start branch of `stepRow_true_facts`. -/
theorem caseStartAux (bp ex mr E : ℚ) (hbp : 0 ≤ bp) (hex : 0 ≤ ex) (hmr : 0 ≤ mr) :
    0 ≤ (bp - min bp ex) -
        ((min ((bp - min bp ex) + (bp - min bp ex) * mr) E) - (bp - min bp ex) * mr) ∧
    ((bp - min bp ex) -
        ((min ((bp - min bp ex) + (bp - min bp ex) * mr) E) - (bp - min bp ex) * mr) ≤
      bp + bp * mr - min (bp + bp * mr) E ∧
     (bp - min bp ex) * mr ≤ bp * mr) := by
  have h0 : 0 ≤ min bp ex := le_min hbp hex
  have hB : bp - min bp ex ≤ bp := by linarith
  have h1 := min_le_left ((bp - min bp ex) + (bp - min bp ex) * mr) E
  have h2 := postBalMono mr E (bp - min bp ex) bp hmr hB
  have h3 := mul_le_mul_of_nonneg_right hB hmr
  exact ⟨by linarith, by linarith, h3⟩

/-- Algebra for the timing-end branch of `stepRow_true_facts`. -/
theorem caseEndAux (bp ex mr E : ℚ) (hex : 0 ≤ ex) :
    0 ≤ (max 0 (bp - (min (bp + bp * mr) E - bp * mr))) -
        min (max 0 (bp - (min (bp + bp * mr) E - bp * mr))) ex ∧
    ((max 0 (bp - (min (bp + bp * mr) E - bp * mr))) -
        min (max 0 (bp - (min (bp + bp * mr) E - bp * mr))) ex ≤
      bp + bp * mr - min (bp + bp * mr) E ∧
     bp * mr ≤ bp * mr) := by
  have ht : 0 ≤ bp - (min (bp + bp * mr) E - bp * mr) := by
    have := min_le_left (bp + bp * mr) E
    linarith
  have hR : max 0 (bp - (min (bp + bp * mr) E - bp * mr)) =
      bp - (min (bp + bp * mr) E - bp * mr) := max_eq_right ht
  rw [hR]
  have h2 : 0 ≤ min (bp - (min (bp + bp * mr) E - bp * mr)) ex := le_min ht hex
  have h3 := min_le_left (bp - (min (bp + bp * mr) E - bp * mr)) ex
  exact ⟨by linarith, by linarith, le_refl _⟩

/-- Algebra for the no-extra branch of `stepRow_true_facts`. -/
theorem caseNoneAux (bp mr E : ℚ) :
    0 ≤ bp - (min (bp + bp * mr) E - bp * mr) ∧
    (bp - (min (bp + bp * mr) E - bp * mr) ≤ bp + bp * mr - min (bp + bp * mr) E ∧
     bp * mr ≤ bp * mr) := by
  have h1 := min_le_left (bp + bp * mr) E
  exact ⟨by linarith, by linarith, le_refl _⟩

theorem stepRow_true_facts (I : LoanInputs) (mr : ℚ) (tm : ℕ) (E : ℚ) (m : ℕ) (bp : ℚ)
    (hmr : 0 ≤ mr) (hmode : I.prepaymentMode = PrepaymentMode.reduceTenure)
    (hce : I.customEmi ≤ 0) (hbp : 0 ≤ bp) :
    0 ≤ (stepRow I true mr tm E m bp).2 ∧
    (stepRow I true mr tm E m bp).2 ≤ bp + bp * mr - min (bp + bp * mr) E ∧
    (stepRow I true mr tm E m bp).1.interest ≤ bp * mr := by
  have hex : 0 ≤ extraOf I true m := extraOf_nonneg I true m
  have hce' : ¬(0 < I.customEmi) := not_lt.2 hce
  cases htm : I.prepaymentTiming with
  | start =>
    by_cases hex0 : 0 < extraOf I true m
    · simp only [stepRow, htm, hmode, hce', hex0, reduceCtorEq, if_true, if_false,
        true_and, and_true, and_false, false_and, and_self, sub_zero]
      exact caseStartAux bp (extraOf I true m) mr E hbp hex hmr
    · simp only [stepRow, htm, hmode, hce', hex0, reduceCtorEq, if_true, if_false,
        true_and, and_true, and_false, false_and, and_self, sub_zero]
      exact caseNoneAux bp mr E
  | atEnd =>
    by_cases hex0 : 0 < extraOf I true m
    · simp only [stepRow, htm, hmode, hce', hex0, reduceCtorEq, if_true, if_false,
        true_and, and_true, and_false, false_and, and_self, sub_zero]
      exact caseEndAux bp (extraOf I true m) mr E hex
    · simp only [stepRow, htm, hmode, hce', hex0, reduceCtorEq, if_true, if_false,
        true_and, and_true, and_false, false_and, and_self, sub_zero]
      exact caseNoneAux bp mr E

end LoanCalc

namespace LoanCalc

/-- With a nonnegative monthly rate the standard schedule accrues only
nonnegative interest. -/
theorem scheduleGo_false_sumInterest_nonneg (I : LoanInputs) (mr : ℚ) (tm : ℕ) (E : ℚ)
    (hmr : 0 ≤ mr) : ∀ (fuel m : ℕ) (bs : ℚ), 0 ≤ bs →
      0 ≤ sumInterest (scheduleGo I false mr tm E fuel m bs) := by
  intro fuel
  induction fuel with
  | zero => intro m bs _; exact le_refl 0
  | succ f ih =>
    intro m bs hbs
    by_cases hss : bs ≤ 1/100
    · rw [scheduleGo_eq_nil_of_le I false mr tm E (f+1) m bs hss]
      exact le_refl 0
    · simp only [scheduleGo, if_neg hss]
      rw [sumInterest_cons]
      have hint : 0 ≤ (stepRow I false mr tm E m bs).1.interest := by
        rw [stepRow_false_interest]
        exact mul_nonneg hbs hmr
      have htail : 0 ≤ sumInterest
          (if (stepRow I false mr tm E m bs).2 ≤ 0 then []
           else scheduleGo I false mr tm E f (m + 1) (stepRow I false mr tm E m bs).2) := by
        split
        · exact le_refl 0
        · refine ih (m + 1) _ ?_
          rw [stepRow_false_bal]
          exact postBalNonneg mr E bs
      linarith

/-- Pointwise dominance: starting a prepaying run (reduce-tenure mode, no
custom-installment override, nonnegative rate) below a standard run keeps it
below, so it emits at most as many rows and accrues at most as much
interest. -/
theorem scheduleGo_dominance (I : LoanInputs) (mr : ℚ) (tm : ℕ) (E : ℚ)
    (hmr : 0 ≤ mr) (hmode : I.prepaymentMode = PrepaymentMode.reduceTenure)
    (hce : I.customEmi ≤ 0) :
    ∀ (fuel m : ℕ) (bp bs : ℚ), 0 ≤ bp → bp ≤ bs →
      (scheduleGo I true mr tm E fuel m bp).length ≤
        (scheduleGo I false mr tm E fuel m bs).length ∧
      sumInterest (scheduleGo I true mr tm E fuel m bp) ≤
        sumInterest (scheduleGo I false mr tm E fuel m bs) := by
  intro fuel
  induction fuel with
  | zero => intro m bp bs _ _; exact ⟨le_refl 0, le_refl 0⟩
  | succ f ih =>
    intro m bp bs hbp hbs
    by_cases hps : bp ≤ 1/100
    · rw [scheduleGo_eq_nil_of_le I true mr tm E (f+1) m bp hps]
      exact ⟨Nat.zero_le _,
        scheduleGo_false_sumInterest_nonneg I mr tm E hmr (f+1) m bs (le_trans hbp hbs)⟩
    · have hss : ¬ bs ≤ 1/100 := fun h => hps (le_trans hbs h)
      obtain ⟨hp0, hple, hint⟩ := stepRow_true_facts I mr tm E m bp hmr hmode hce hbp
      have hs0 : 0 ≤ (stepRow I false mr tm E m bs).2 := by
        rw [stepRow_false_bal]
        exact postBalNonneg mr E bs
      have hdom : (stepRow I true mr tm E m bp).2 ≤ (stepRow I false mr tm E m bs).2 := by
        rw [stepRow_false_bal]
        exact le_trans hple (postBalMono mr E bp bs hmr hbs)
      have hintle : (stepRow I true mr tm E m bp).1.interest ≤
          (stepRow I false mr tm E m bs).1.interest := by
        rw [stepRow_false_interest]
        exact le_trans hint (mul_le_mul_of_nonneg_right hbs hmr)
      simp only [scheduleGo, if_neg hps, if_neg hss]
      by_cases hpz : (stepRow I true mr tm E m bp).2 ≤ 0
      · rw [if_pos hpz]
        constructor
        · simp only [List.length_cons]
          split
          · exact le_refl _
          · exact Nat.succ_le_succ (Nat.zero_le _)
        · rw [sumInterest_cons, sumInterest_cons]
          have htail : 0 ≤ sumInterest
              (if (stepRow I false mr tm E m bs).2 ≤ 0 then []
               else scheduleGo I false mr tm E f (m + 1) (stepRow I false mr tm E m bs).2) := by
            split
            · exact le_refl 0
            · exact scheduleGo_false_sumInterest_nonneg I mr tm E hmr f (m + 1) _ hs0
          have hnil : sumInterest ([] : List AmortizationRow) = 0 := rfl
          rw [hnil]
          linarith
      · have hsz : ¬ (stepRow I false mr tm E m bs).2 ≤ 0 := by
          intro h
          exact hpz (le_trans hdom h)
        rw [if_neg hpz, if_neg hsz]
        obtain ⟨ihl, ihs⟩ := ih (m + 1) (stepRow I true mr tm E m bp).2
          (stepRow I false mr tm E m bs).2 (le_of_lt (not_le.1 hpz)) hdom
        constructor
        · simp only [List.length_cons]
          exact Nat.succ_le_succ ihl
        · rw [sumInterest_cons, sumInterest_cons]
          linarith

end LoanCalc

namespace LoanCalc

/-! ## Claim C4 -/

/-- C4 fails as stated, in three independent ways, each at an explicit
configuration with a positive prepayment source: (1) a positive custom
installment below the interest charge overrides the installment only in the
prepaid run, which then accrues more interest than the standard run; (2)
with a negative rate, paying the loan off early avoids negative interest,
so the prepaid total interest exceeds the standard one; (3) in reduce-EMI
mode with a fractional tenure, the re-amortized installment is below the
standard one and the 0.01 stopping epsilon lets the prepaid schedule run
one month longer than the standard schedule. -/
theorem claim4_counterexample :
    (positiveSource (LoanInputs.mk 1000 12 (1/6) 0 0 1 1 [] PrepaymentTiming.atEnd
        PrepaymentMode.reduceTenure) ∧
      ¬(sumInterest (generateSchedule (LoanInputs.mk 1000 12 (1/6) 0 0 1 1 []
          PrepaymentTiming.atEnd PrepaymentMode.reduceTenure) true) ≤
        sumInterest (generateSchedule (LoanInputs.mk 1000 12 (1/6) 0 0 1 1 []
          PrepaymentTiming.atEnd PrepaymentMode.reduceTenure) false))) ∧
    (positiveSource (LoanInputs.mk 1000 (-12) (1/6) 0 0 2000 0 [] PrepaymentTiming.atEnd
        PrepaymentMode.reduceTenure) ∧
      ¬(sumInterest (generateSchedule (LoanInputs.mk 1000 (-12) (1/6) 0 0 2000 0 []
          PrepaymentTiming.atEnd PrepaymentMode.reduceTenure) true) ≤
        sumInterest (generateSchedule (LoanInputs.mk 1000 (-12) (1/6) 0 0 2000 0 []
          PrepaymentTiming.atEnd PrepaymentMode.reduceTenure) false))) ∧
    (positiveSource (LoanInputs.mk (3/20) 0 (21/20) 0 0 (1/1000000) 0 []
        PrepaymentTiming.atEnd PrepaymentMode.reduceEmi) ∧
      ¬((generateSchedule (LoanInputs.mk (3/20) 0 (21/20) 0 0 (1/1000000) 0 []
          PrepaymentTiming.atEnd PrepaymentMode.reduceEmi) true).length ≤
        (generateSchedule (LoanInputs.mk (3/20) 0 (21/20) 0 0 (1/1000000) 0 []
          PrepaymentTiming.atEnd PrepaymentMode.reduceEmi) false).length)) := by
  with_unfolding_all decide

/-- C4 amended: for every configuration with a positive prepayment source,
a nonnegative annual rate, no custom-installment override, and prepayment
mode reduce-tenure, the prepaid schedule is at most as long as the standard
schedule and accrues at most as much total interest.  (The three added
hypotheses are forced by the three refutations in the counterexample.) -/
theorem claim4_prepay_monotone (I : LoanInputs) (hsrc : positiveSource I)
    (hr : 0 ≤ I.annualInterestRate) (hce : I.customEmi ≤ 0)
    (hmode : I.prepaymentMode = PrepaymentMode.reduceTenure) :
    (generateSchedule I true).length ≤ (generateSchedule I false).length ∧
    sumInterest (generateSchedule I true) ≤ sumInterest (generateSchedule I false) := by
  have hmr : 0 ≤ I.annualInterestRate / 12 / 100 := by positivity
  by_cases hp : I.principal ≤ 1/100
  · rw [show generateSchedule I true =
        scheduleGo I true (I.annualInterestRate / 12 / 100)
          ((max 0 (jround (I.tenureYears * 12))).toNat)
          (calculateEmi I.principal I.annualInterestRate I.tenureYears)
          (min 600 (if (max 0 (jround (I.tenureYears * 12))).toNat = 0 then 600
            else (max 0 (jround (I.tenureYears * 12))).toNat)) 1 I.principal from rfl,
      show generateSchedule I false =
        scheduleGo I false (I.annualInterestRate / 12 / 100)
          ((max 0 (jround (I.tenureYears * 12))).toNat)
          (calculateEmi I.principal I.annualInterestRate I.tenureYears)
          (min 600 (if (max 0 (jround (I.tenureYears * 12))).toNat = 0 then 600
            else (max 0 (jround (I.tenureYears * 12))).toNat)) 1 I.principal from rfl,
      scheduleGo_eq_nil_of_le _ _ _ _ _ _ _ _ hp, scheduleGo_eq_nil_of_le _ _ _ _ _ _ _ _ hp]
    exact ⟨le_refl 0, le_refl 0⟩
  · exact scheduleGo_dominance I _ _ _ hmr hmode hce _ 1 I.principal I.principal
      (le_of_lt (lt_trans (by norm_num) (not_le.1 hp))) (le_refl _)

/-- Closed instance of `claim4_prepay_monotone` at a configuration with a
positive monthly extra payment. -/
theorem claim4_prepay_monotone_witness :
    (generateSchedule (LoanInputs.mk 1000 12 (1/6) 0 0 50 0 [] PrepaymentTiming.atEnd
        PrepaymentMode.reduceTenure) true).length ≤
      (generateSchedule (LoanInputs.mk 1000 12 (1/6) 0 0 50 0 [] PrepaymentTiming.atEnd
        PrepaymentMode.reduceTenure) false).length ∧
    sumInterest (generateSchedule (LoanInputs.mk 1000 12 (1/6) 0 0 50 0 []
        PrepaymentTiming.atEnd PrepaymentMode.reduceTenure) true) ≤
      sumInterest (generateSchedule (LoanInputs.mk 1000 12 (1/6) 0 0 50 0 []
        PrepaymentTiming.atEnd PrepaymentMode.reduceTenure) false) :=
  claim4_prepay_monotone _ (Or.inl (by norm_num)) (by norm_num) (by norm_num) rfl

end LoanCalc
